import Mathlib

set_option maxRecDepth 100000

/-!
Shallow embedding of the pull-request classification, filtering, sorting and
pin-persistence pipeline of the `gitgud` dashboard (src/utils/prUtils.ts,
types from src/types.ts), together with theorems settling the spec claims.

Modelling conventions:
* TypeScript optional fields (`reviews?`, `reviewDecision?`, `status?`,
  `stale?`) become `Option`; JavaScript optional chaining `x?.f` that yields
  `undefined` (falsy) on a missing receiver is translated case by case,
  matching the truthiness of the expression it feeds into.
* Optional boolean fields that are only ever read in boolean positions
  (`userIsRequestedReviewer`, `isPinned`) become `Bool`, `undefined ↦ false`.
* Date strings are represented by their parsed epoch-millisecond values
  (`Int`), since the source only ever uses `new Date(s).getTime()`;
  `Date.now()` becomes an explicit `now : Int` parameter.
* Review states carried by the GitHub API are open-ended strings in the
  source (`Review.state : string`), so they stay `String` here; the derived
  `status` field is the closed `ReviewState` enumeration from types.ts.
-/

namespace GitGud

/-- The `ReviewState` union type from src/types.ts. -/
inductive ReviewState where
  | APPROVED
  | CHANGES_REQUESTED
  | NEEDS_REVIEW
  | DRAFT
  | UNKNOWN
deriving DecidableEq, Repr

/-- The `{ login, avatar_url }` user shape from src/types.ts (avatar url is
presentation-only and never read by the pipeline, so it is omitted). -/
structure User where
  login : String
deriving DecidableEq, Repr

/-- A single review, from src/types.ts (`Review`). `state` is an open string
as in the source (the API may return states beyond the enumerated ones). -/
structure Review where
  id : String
  state : String
  user : User
  submitted_at : Int
deriving DecidableEq, Repr

/-- The `repository` sub-record of a pull request from src/types.ts. -/
structure RepoRef where
  name : String
  full_name : String
deriving DecidableEq, Repr

/-- A pull request, from src/types.ts (`PullRequest`). Fields the pipeline
never reads (urls, avatar urls, `state`, `requested_reviewers` list) are
omitted; `created_at` / `updated_at` are epoch milliseconds. -/
structure PullRequest where
  id : String
  number : Nat
  title : String
  draft : Bool
  created_at : Int
  updated_at : Int
  user : User
  repository : RepoRef
  reviewDecision : Option String
  reviews : Option (List Review)
  status : Option ReviewState
  stale : Option Bool
  userIsRequestedReviewer : Bool
  isPinned : Bool
deriving DecidableEq, Repr

/-- `hasChangesRequested` from src/utils/prUtils.ts:
`pr.reviews?.some(r => r.state === 'CHANGES_REQUESTED') || pr.reviewDecision === 'CHANGES_REQUESTED'`.
A missing `reviews` makes the optional chain `undefined` (falsy), which
coincides with `any` over the empty list. -/
def hasChangesRequested (pr : PullRequest) : Bool :=
  (pr.reviews.getD []).any (fun review => review.state == "CHANGES_REQUESTED") ||
    pr.reviewDecision == some "CHANGES_REQUESTED"

/-- `needsReview` from src/utils/prUtils.ts:
`!pr.reviews?.some(r => r.state === 'APPROVED') || pr.reviewDecision === 'REVIEW_REQUIRED'`.
A missing `reviews` makes the chained `some` `undefined`, so its negation is
`true`, which coincides with `!any` over the empty list. -/
def needsReview (pr : PullRequest) : Bool :=
  !(pr.reviews.getD []).any (fun review => review.state == "APPROVED") ||
    pr.reviewDecision == some "REVIEW_REQUIRED"

/-- `isApproved` from src/utils/prUtils.ts:
`pr.reviews?.every(r => r.state === 'APPROVED' || r.state === 'COMMENTED') || pr.reviewDecision === 'APPROVED'`.
Here a missing `reviews` makes the chained `every` `undefined` (falsy), which
is NOT the vacuous truth of `all` over `[]`, so the two cases are split. -/
def isApproved (pr : PullRequest) : Bool :=
  (match pr.reviews with
    | none => false
    | some reviews =>
        reviews.all (fun review =>
          review.state == "APPROVED" || review.state == "COMMENTED")) ||
    pr.reviewDecision == some "APPROVED"

/-- `getPRStatus` from src/utils/prUtils.ts. `Date.now()` is passed in as
`now`. The source clones the input (`{ ...pr }`) and returns the clone; on the
draft branch it returns early, BEFORE the staleness computation at the bottom
of the function, so `stale` is left untouched there. -/
def getPRStatus (now : Int) (pr : PullRequest) (staleThresholdDays : Int) :
    PullRequest :=
  if pr.draft then
    { pr with status := some ReviewState.DRAFT }
  else
    let status :=
      if hasChangesRequested pr then ReviewState.CHANGES_REQUESTED
      else if needsReview pr then ReviewState.NEEDS_REVIEW
      else if isApproved pr then ReviewState.APPROVED
      else ReviewState.UNKNOWN
    let staleThreshold := staleThresholdDays * 24 * 60 * 60 * 1000
    { pr with
        status := some status
        stale := some (decide (now - pr.updated_at > staleThreshold)) }

/-- The reducer callback of `groupPRsByStatus` (src/utils/prUtils.ts):
`const status = pr.status || 'UNKNOWN'; groups[status] = [...(groups[status] || []), pr]`.
`pr.status || 'UNKNOWN'` tests truthiness of the optional status, i.e.
defaulting; the update appends `pr` at the end of its bucket, and since every
key is initialised the `|| []` is the identity. -/
def groupReducer (groups : ReviewState → List PullRequest)
    (pr : PullRequest) : ReviewState → List PullRequest :=
  let status := pr.status.getD ReviewState.UNKNOWN
  fun s => if s = status then groups s ++ [pr] else groups s

/-- `groupPRsByStatus` from src/utils/prUtils.ts. The TS `Record<ReviewState,
PullRequest[]>` with all five keys initialised to `[]` is modelled as a total
function `ReviewState → List PullRequest`, so every bucket is always present. -/
def groupPRsByStatus (prs : List PullRequest) :
    ReviewState → List PullRequest :=
  prs.foldl groupReducer (fun _ => [])

/-- The `sortBy` union `'newest' | 'oldest' | 'updated' | 'title'` from the
`FilterOptions` interface in src/utils/prUtils.ts. -/
inductive SortBy where
  | newest
  | oldest
  | updated
  | title
deriving DecidableEq, Repr

/-- The `FilterOptions` interface from src/utils/prUtils.ts. -/
structure FilterOptions where
  searchQuery : String
  repositories : List String
  authors : List String
  hideStale : Bool
  sortBy : SortBy
  prioritizeMyReviews : Bool
deriving DecidableEq, Repr

/-- Does `hay` start with `pat`? Models the prefix step of JavaScript
`String.prototype.includes` over the character sequence. -/
def startsWithList : List Char → List Char → Bool
  | _, [] => true
  | [], _ :: _ => false
  | h :: hs, p :: ps => h == p && startsWithList hs ps

/-- Does `pat` occur contiguously inside `hay`? Models JavaScript
`String.prototype.includes` (substring containment) over characters. -/
def includesList (pat : List Char) : List Char → Bool
  | [] => startsWithList [] pat
  | c :: rest => startsWithList (c :: rest) pat || includesList pat rest

/-- JavaScript `s.includes(pat)` for strings. -/
def jsIncludes (s pat : String) : Bool :=
  includesList pat.data s.data

/-- JavaScript `s.toLowerCase()`. Unicode case mapping is abstracted to
per-character lowercasing (ASCII-complete), as for the library `toLower`. -/
def jsToLower (s : String) : String :=
  String.mk (s.data.map Char.toLower)

/-- Whitespace removed by JavaScript `s.trim()` (the common subset). -/
def isJsWhitespace (c : Char) : Bool :=
  c == ' ' || c == '\t' || c == '\n' || c == '\r'

/-- JavaScript `s.trim()`: strip leading and trailing whitespace. -/
def jsTrim (s : String) : String :=
  String.mk
    (((s.data.dropWhile isJsWhitespace).reverse.dropWhile
      isJsWhitespace).reverse)

/-- The filter callback inside `filterAndSortPRs` (src/utils/prUtils.ts),
with the precomputed `normalizedQuery` passed in. The source's early
`return false` cascade becomes a nested if-chain; `if (normalizedQuery)`
tests string truthiness, i.e. non-emptiness. -/
def prPassesFilter (options : FilterOptions) (normalizedQuery : String)
    (pr : PullRequest) : Bool :=
  if pr.draft then false
  else if options.repositories.length > 0 &&
      !options.repositories.contains pr.repository.name then false
  else if options.authors.length > 0 &&
      !options.authors.contains pr.user.login then false
  else if options.hideStale && pr.stale.getD false then false
  else if normalizedQuery != "" then
    jsIncludes (jsToLower pr.title) normalizedQuery ||
      jsIncludes (jsToLower pr.user.login) normalizedQuery ||
      jsIncludes (jsToLower pr.repository.name) normalizedQuery
  else true

/-- Sign-valued model of `a.localeCompare(b)`: negative when `a` orders
before `b`, positive when after, zero on equality. Locale-aware collation is
abstracted to the code-point (lexicographic) order on strings; only the sign
contract of `localeCompare` is ever used by the sort. -/
def strCompare (a b : String) : Int :=
  if a < b then -1 else if b < a then 1 else 0

/-- The comparator passed to `.sort()` inside `filterAndSortPRs`
(src/utils/prUtils.ts). The source nests the two requested-reviewer tests
inside `if (options.prioritizeMyReviews)`; that nesting is flattened here
with `&&`, which returns the same value in every case. The `switch` has an
unreachable `default: return 0` because `sortBy` is a closed union. -/
def comparePRs (options : FilterOptions) (a b : PullRequest) : Int :=
  if a.isPinned && !b.isPinned then -1
  else if !a.isPinned && b.isPinned then 1
  else if options.prioritizeMyReviews &&
      (a.userIsRequestedReviewer && !b.userIsRequestedReviewer) then -1
  else if options.prioritizeMyReviews &&
      (!a.userIsRequestedReviewer && b.userIsRequestedReviewer) then 1
  else
    match options.sortBy with
    | SortBy.newest => b.created_at - a.created_at
    | SortBy.oldest => a.created_at - b.created_at
    | SortBy.updated => b.updated_at - a.updated_at
    | SortBy.title => strCompare a.title b.title

/-- Proof-side view of the first comparator level: pinned pull requests
rank 0, unpinned rank 1. -/
def pinRank (pr : PullRequest) : Nat :=
  if pr.isPinned then 0 else 1

/-- Proof-side view of the second comparator level: under
`prioritizeMyReviews`, requested reviewers rank 0, others rank 1; when the
option is off every pull request ranks 1. -/
def revRank (options : FilterOptions) (pr : PullRequest) : Nat :=
  if options.prioritizeMyReviews && pr.userIsRequestedReviewer then 0 else 1

/-- The `switch (options.sortBy)` comparator at the bottom of the sort in
`filterAndSortPRs`, on its own. -/
def baseCompare (sb : SortBy) (a b : PullRequest) : Int :=
  match sb with
  | SortBy.newest => b.created_at - a.created_at
  | SortBy.oldest => a.created_at - b.created_at
  | SortBy.updated => b.updated_at - a.updated_at
  | SortBy.title => strCompare a.title b.title

/-- `filterAndSortPRs` from src/utils/prUtils.ts. JavaScript
`Array.prototype.sort` is a stable ascending sort by the comparator; for a
comparator inducing a total preorder the stable sorted arrangement is unique,
so it is modelled by `List.mergeSort`, which is stable. -/
def filterAndSortPRs (prs : List PullRequest) (options : FilterOptions) :
    List PullRequest :=
  let normalizedQuery := jsTrim (jsToLower options.searchQuery)
  let filteredPRs := prs.filter (prPassesFilter options normalizedQuery)
  filteredPRs.mergeSort (fun a b => decide (comparePRs options a b ≤ 0))

/-- `filterPRs` from src/utils/prUtils.ts (the legacy entry point): when
`showDrafts` is false drafts are pre-filtered away, then `filterAndSortPRs`
runs with the fixed legacy options. -/
def filterPRs (prs : List PullRequest) (query : String) (showDrafts : Bool) :
    List PullRequest :=
  let filteredPrs := if showDrafts then prs else prs.filter (fun pr => !pr.draft)
  filterAndSortPRs filteredPrs
    { searchQuery := query
      repositories := []
      authors := []
      hideStale := true
      sortBy := SortBy.updated
      prioritizeMyReviews := true }

/-- JavaScript `ToInt32`: reduce an integer into the signed 32-bit range
`[-2^31, 2^31)`. The numerals are `2^31` and `2^32`, written out so the
definition evaluates cheaply. -/
def toInt32 (n : Int) : Int :=
  (n + 2147483648) % 4294967296 - 2147483648

/-- JavaScript `n << 5`: both the operand coercion and the result of the
shift are signed 32-bit. -/
def jsShiftLeft5 (n : Int) : Int :=
  toInt32 (toInt32 n * 32)

/-- The hash fold inside `getRepoColor` (src/utils/prUtils.ts):
`repoName.split('').reduce((acc, char) => char.charCodeAt(0) + ((acc << 5) - acc), 0)`.
Only the `<<` coerces to signed 32-bit; the outer subtraction and addition
are ordinary JavaScript number arithmetic, which is exact on integers of
this magnitude (they stay far below 2^53 for any realistic name), so the
accumulator is an unbounded `Int` here. `split('')` enumerates UTF-16 code
units; this model uses code points, which agree on the Basic Multilingual
Plane. -/
def repoHash (repoName : String) : Int :=
  repoName.data.foldl
    (fun acc char => (char.toNat : Int) + (jsShiftLeft5 acc - acc)) 0

/-- `Math.abs(hash) % 360` from `getRepoColor`. -/
def repoHue (repoName : String) : Nat :=
  (repoHash repoName).natAbs % 360

/-- `getRepoColor` from src/utils/prUtils.ts, returning the
`(bg, text)` pair of HSL colour strings. -/
def getRepoColor (repoName : String) : String × String :=
  let hue := repoHue repoName
  ("hsl(" ++ toString hue ++ ", 80%, 90%)",
   "hsl(" ++ toString hue ++ ", 80%, 30%)")

/-- The hash fold as the spec words it, for comparison with `repoHash`:
the same recurrence evaluated "under a fixed-width signed 32-bit integer
overflow model", i.e. the accumulator is wrapped into the signed 32-bit
range at every step, not only at the shift. -/
def repoHash32 (repoName : String) : Int :=
  repoName.data.foldl
    (fun acc char => toInt32 ((char.toNat : Int) + (jsShiftLeft5 acc - acc))) 0

/-- Hue of the spec-worded 32-bit-wrapped hash. -/
def repoHue32 (repoName : String) : Nat :=
  (repoHash32 repoName).natAbs % 360

/-- `getRepoColor` as the spec words it: the claimed algorithm with full
32-bit wraparound, same hue and HSL formatting. -/
def getRepoColorSpec (repoName : String) : String × String :=
  let hue := repoHue32 repoName
  ("hsl(" ++ toString hue ++ ", 80%, 90%)",
   "hsl(" ++ toString hue ++ ", 80%, 30%)")

/-- Drop leading JSON whitespace. -/
def skipWs : List Char → List Char
  | c :: rest =>
    if c == ' ' || c == '\t' || c == '\n' || c == '\r' then skipWs rest
    else c :: rest
  | [] => []

/-- Value of a hexadecimal digit, if the character is one. -/
def hexDigitVal (c : Char) : Option Nat :=
  if '0' ≤ c ∧ c ≤ '9' then some (c.toNat - '0'.toNat)
  else if 'a' ≤ c ∧ c ≤ 'f' then some (c.toNat - 'a'.toNat + 10)
  else if 'A' ≤ c ∧ c ≤ 'F' then some (c.toNat - 'A'.toNat + 10)
  else none

/-- Parse the body of a JSON string after the opening quote, accumulating
characters in reverse; returns the string and the input after the closing
quote, or `none` on malformed input (unterminated string, bad escape, raw
control character). -/
def parseJsonStringBody : List Char → List Char → Option (String × List Char)
  | acc, '"' :: rest => some (String.mk acc.reverse, rest)
  | acc, '\\' :: 'u' :: h1 :: h2 :: h3 :: h4 :: rest =>
    (match hexDigitVal h1, hexDigitVal h2, hexDigitVal h3, hexDigitVal h4 with
     | some v1, some v2, some v3, some v4 =>
       parseJsonStringBody
         (Char.ofNat (((v1 * 16 + v2) * 16 + v3) * 16 + v4) :: acc) rest
     | _, _, _, _ => none)
  | acc, '\\' :: esc :: rest =>
    (match esc with
     | '"' => parseJsonStringBody ('"' :: acc) rest
     | '\\' => parseJsonStringBody ('\\' :: acc) rest
     | '/' => parseJsonStringBody ('/' :: acc) rest
     | 'b' => parseJsonStringBody (Char.ofNat 8 :: acc) rest
     | 'f' => parseJsonStringBody (Char.ofNat 12 :: acc) rest
     | 'n' => parseJsonStringBody ('\n' :: acc) rest
     | 'r' => parseJsonStringBody (Char.ofNat 13 :: acc) rest
     | 't' => parseJsonStringBody ('\t' :: acc) rest
     | _ => none)
  | acc, c :: rest =>
    if c.toNat < 32 then none else parseJsonStringBody (c :: acc) rest
  | _, [] => none

/-- A JavaScript value as produced by `JSON.parse`. A number keeps its exact
decimal components, reading `num m e` as `m * 10 ^ e`; the rounding to a
binary double that JavaScript performs is irrelevant to every claim here and
is not modelled. -/
inductive JsValue where
  | null
  | bool (b : Bool)
  | num (mantissa : Int) (exp10 : Int)
  | str (s : String)
  | arr (elems : List JsValue)
  | obj (fields : List (String × JsValue))

/-- Take the longest run of leading decimal digits, as digit values. -/
def takeDigits : List Char → (List Nat × List Char)
  | c :: rest =>
    if '0' ≤ c ∧ c ≤ '9' then
      let (ds, r) := takeDigits rest
      ((c.toNat - '0'.toNat) :: ds, r)
    else ([], c :: rest)
  | [] => ([], [])

/-- Decimal digits to their value. -/
def digitsToNat (ds : List Nat) : Nat :=
  ds.foldl (fun a d => a * 10 + d) 0

/-- Parse the optional fraction part of a JSON number: after a `.` at least
one digit is required; absent is fine. -/
def parseFracPart : List Char → Option (List Nat × List Char)
  | '.' :: rest =>
    (match takeDigits rest with
     | ([], _) => none
     | (ds, r) => some (ds, r))
  | l => some ([], l)

/-- Parse the optional exponent part of a JSON number: after `e`/`E` an
optional sign and at least one digit; absent yields exponent 0. -/
def parseExpPart : List Char → Option (Int × List Char)
  | c :: rest =>
    if c == 'e' || c == 'E' then
      let (eneg, r1) :=
        match rest with
        | '+' :: r => (false, r)
        | '-' :: r => (true, r)
        | r => (false, r)
      match takeDigits r1 with
      | ([], _) => none
      | (ds, r2) =>
        some ((if eneg then -(digitsToNat ds : Int) else (digitsToNat ds : Int)), r2)
    else some (0, c :: rest)
  | [] => some (0, [])

/-- Parse one JSON number token (strict grammar: optional `-`, integer part
without leading zeros, optional fraction, optional exponent). -/
def parseNumberTok (l : List Char) : Option (JsValue × List Char) :=
  let (neg, l1) :=
    match l with
    | '-' :: r => (true, r)
    | _ => (false, l)
  match takeDigits l1 with
  | ([], _) => none
  | (intDs, l2) =>
    if intDs.length > 1 && intDs.headD 0 == 0 then none
    else
      match parseFracPart l2 with
      | none => none
      | some (fracDs, l3) =>
        match parseExpPart l3 with
        | none => none
        | some (e, l4) =>
          let mantissa : Int := (digitsToNat (intDs ++ fracDs) : Int)
          some (JsValue.num (if neg then -mantissa else mantissa)
            (e - fracDs.length), l4)

/-- Parse the comma-separated elements of a JSON array with the supplied
value parser, positioned at the first element; returns the elements and the
input after the closing bracket. `fuel` bounds the number of elements. -/
def parseElementsWith
    (pElem : List Char → Option (JsValue × List Char)) :
    Nat → List Char → List JsValue → Option (List JsValue × List Char)
  | 0, _, _ => none
  | fuel + 1, l, acc =>
    match pElem l with
    | none => none
    | some (v, rest) =>
      match skipWs rest with
      | ',' :: rest2 => parseElementsWith pElem fuel rest2 (acc ++ [v])
      | ']' :: rest2 => some (acc ++ [v], rest2)
      | _ => none

/-- Parse the comma-separated `"key": value` members of a JSON object with
the supplied value parser, positioned at the first member; returns the
members and the input after the closing brace. -/
def parseMembersWith
    (pElem : List Char → Option (JsValue × List Char)) :
    Nat → List Char → List (String × JsValue) →
      Option (List (String × JsValue) × List Char)
  | 0, _, _ => none
  | fuel + 1, l, acc =>
    match skipWs l with
    | '"' :: rest =>
      (match parseJsonStringBody [] rest with
       | none => none
       | some (key, rest2) =>
         match skipWs rest2 with
         | ':' :: rest3 =>
           (match pElem rest3 with
            | none => none
            | some (v, rest4) =>
              match skipWs rest4 with
              | ',' :: rest5 =>
                parseMembersWith pElem fuel rest5 (acc ++ [(key, v)])
              | '}' :: rest5 => some (acc ++ [(key, v)], rest5)
              | _ => none)
         | _ => none)
    | _ => none

/-- Parse one JSON value (leading whitespace allowed), returning the value
and the remaining input. `fuel` bounds the nesting depth; one unit is spent
per level, so the input length suffices. -/
def parseJsonValue : Nat → List Char → Option (JsValue × List Char)
  | 0, _ => none
  | fuel + 1, l =>
    match skipWs l with
    | 'n' :: 'u' :: 'l' :: 'l' :: rest => some (JsValue.null, rest)
    | 't' :: 'r' :: 'u' :: 'e' :: rest => some (JsValue.bool true, rest)
    | 'f' :: 'a' :: 'l' :: 's' :: 'e' :: rest => some (JsValue.bool false, rest)
    | '"' :: rest =>
      (match parseJsonStringBody [] rest with
       | some (s, rest2) => some (JsValue.str s, rest2)
       | none => none)
    | '[' :: rest =>
      (match skipWs rest with
       | ']' :: rest2 => some (JsValue.arr [], rest2)
       | _ =>
         match parseElementsWith (parseJsonValue fuel) fuel rest [] with
         | some (elems, rest2) => some (JsValue.arr elems, rest2)
         | none => none)
    | '{' :: rest =>
      (match skipWs rest with
       | '}' :: rest2 => some (JsValue.obj [], rest2)
       | _ =>
         match parseMembersWith (parseJsonValue fuel) fuel rest [] with
         | some (fields, rest2) => some (JsValue.obj fields, rest2)
         | none => none)
    | l2 => parseNumberTok l2

/-- `JSON.parse` (a platform builtin, not repository code): the strict JSON
grammar — null, booleans, numbers, strings with escapes, arrays, objects —
with `none` modelling a thrown `SyntaxError`; trailing whitespace only. -/
def jsonParse (s : String) : Option JsValue :=
  match parseJsonValue (s.length + 1) s.data with
  | some (v, rest) => if (skipWs rest).isEmpty then some v else none
  | none => none

/-- `getPinnedPRs` from src/utils/prUtils.ts at the dynamic (untyped) level.
The `localStorage.getItem` result (`string | null`) is the explicit
`storage` argument; the source's `pinnedPRs ? JSON.parse(pinnedPRs) : []`
tests string truthiness (null and `""` are falsy), and the surrounding
`try/catch` turns any parse failure into `[]`. The function's declared
return type is `string[]`, but nothing checks the parsed value, so on
storage holding valid JSON of any other shape the source returns that value
as-is. -/
def getPinnedPRsValue (storage : Option String) : JsValue :=
  match storage with
  | none => JsValue.arr []
  | some s =>
    if s == "" then JsValue.arr []
    else
      match jsonParse s with
      | some v => v
      | none => JsValue.arr []

/-- Is this list of JSON values an array of strings? If so, which one. -/
def asStringList : List JsValue → Option (List String)
  | [] => some []
  | JsValue.str s :: rest => (asStringList rest).map (fun l => s :: l)
  | _ => none

/-- The declared-type (`string[]`) reading of a JSON value: the string list
when the value is a JSON array of strings, `none` otherwise. -/
def asStringArr : JsValue → Option (List String)
  | JsValue.arr elems => asStringList elems
  | _ => none

/-- The persisted pinned list as read at the store's declared type:
`JSON.parse` followed by the `string[]` reading. -/
def parsePinnedList (s : String) : Option (List String) :=
  (jsonParse s).bind asStringArr

/-- `getPinnedPRs` from src/utils/prUtils.ts as read at its declared type
`string[]`: the projection of `getPinnedPRsValue` onto string arrays,
defaulting to `[]`. This coincides with the source for every record the
store itself writes (always a stringified string array); for storage
holding valid JSON of another shape the source instead returns that value
unchecked — see `getPinnedPRsValue`. -/
def getPinnedPRs (storage : Option String) : List String :=
  match storage with
  | none => []
  | some s =>
    if s == "" then []
    else
      match parsePinnedList s with
      | some v => v
      | none => []

/-- `applyPinStatus` from src/utils/prUtils.ts: stamp `isPinned` on every
pull request by membership of its id in the persisted pinned list. -/
def applyPinStatus (storage : Option String) (prs : List PullRequest) :
    List PullRequest :=
  let pinnedPRs := getPinnedPRs storage
  prs.map (fun pr => { pr with isPinned := pinnedPRs.contains pr.id })

/-- A baseline concrete pull request used to instantiate theorems with
hypotheses at concrete inputs. -/
def samplePR : PullRequest :=
  { id := "1"
    number := 1
    title := "Fix bug"
    draft := false
    created_at := 0
    updated_at := 0
    user := { login := "alice" }
    repository := { name := "gitgud", full_name := "vnord/gitgud" }
    reviewDecision := none
    reviews := none
    status := none
    stale := none
    userIsRequestedReviewer := false
    isPinned := false }

/-- A concrete non-draft pull request whose single review is COMMENTED. -/
def commentedPR : PullRequest :=
  { samplePR with
      reviews := some
        [{ id := "r1", state := "COMMENTED", user := { login := "bob" },
           submitted_at := 0 }] }

/-- A concrete non-draft pull request with one APPROVED and one COMMENTED
review. -/
def mixedReviewPR : PullRequest :=
  { samplePR with
      reviews := some
        [{ id := "r1", state := "APPROVED", user := { login := "bob" },
           submitted_at := 0 },
         { id := "r2", state := "COMMENTED", user := { login := "carol" },
           submitted_at := 0 }] }

/-- Claim C1: for every non-draft pull request with at least one
CHANGES_REQUESTED review (or aggregate reviewDecision CHANGES_REQUESTED),
`getPRStatus` assigns status CHANGES_REQUESTED, regardless of any other
reviews: the CHANGES_REQUESTED check is the first non-draft check. -/
theorem c1_changes_requested_priority (now staleThresholdDays : Int)
    (pr : PullRequest) (hdraft : pr.draft = false)
    (h : (∃ review ∈ pr.reviews.getD [], review.state = "CHANGES_REQUESTED") ∨
      pr.reviewDecision = some "CHANGES_REQUESTED") :
    (getPRStatus now pr staleThresholdDays).status =
      some ReviewState.CHANGES_REQUESTED := by
  have hcr : hasChangesRequested pr = true := by
    unfold hasChangesRequested
    rcases h with ⟨r, hr, hs⟩ | hdec
    · have hany : (pr.reviews.getD []).any
          (fun review => review.state == "CHANGES_REQUESTED") = true := by
        rw [List.any_eq_true]
        exact ⟨r, hr, by simp [hs]⟩
      simp [hany]
    · simp [hdec]
  simp [getPRStatus, hdraft, hcr]

/-- Witness for C1 at a concrete pull request with one APPROVED and one
CHANGES_REQUESTED review. -/
theorem c1_changes_requested_priority_witness :
    (getPRStatus 0
      { samplePR with
          reviews := some
            [{ id := "r1", state := "APPROVED", user := { login := "bob" },
               submitted_at := 0 },
             { id := "r2", state := "CHANGES_REQUESTED",
               user := { login := "carol" }, submitted_at := 0 }] }
      7).status = some ReviewState.CHANGES_REQUESTED :=
  c1_changes_requested_priority 0 7 _ (by decide)
    (Or.inl ⟨{ id := "r2", state := "CHANGES_REQUESTED",
               user := { login := "carol" }, submitted_at := 0 },
             by decide, rfl⟩)

/-- Claim C2: for every non-draft pull request with an empty or absent
reviews list and no reviewDecision, `getPRStatus` returns NEEDS_REVIEW: the
NEEDS_REVIEW check precedes the APPROVED check, so the vacuous truth of
`every` over the empty list never produces APPROVED. -/
theorem c2_empty_reviews_needs_review (now staleThresholdDays : Int)
    (pr : PullRequest) (hdraft : pr.draft = false)
    (hrev : pr.reviews = none ∨ pr.reviews = some [])
    (hdec : pr.reviewDecision = none) :
    (getPRStatus now pr staleThresholdDays).status =
      some ReviewState.NEEDS_REVIEW := by
  have hempty : pr.reviews.getD [] = [] := by
    rcases hrev with h | h <;> simp [h]
  have hcr : hasChangesRequested pr = false := by
    simp [hasChangesRequested, hempty, hdec]
  have hnr : needsReview pr = true := by
    simp [needsReview, hempty]
  simp [getPRStatus, hdraft, hcr, hnr]

/-- Witness for C2 at a concrete reviewless pull request. -/
theorem c2_empty_reviews_needs_review_witness :
    (getPRStatus 0 samplePR 7).status = some ReviewState.NEEDS_REVIEW :=
  c2_empty_reviews_needs_review 0 7 samplePR (by decide) (Or.inl rfl) rfl

/-- Counterexample to claim C3: a draft pull request updated 10^12 ms before
`now` (far beyond the 7-day threshold, as the last conjunct records) comes
back with status DRAFT but with `stale` still unset — the draft branch
returns before the staleness computation, so `isStale` is NOT attached on
that branch, contrary to the claim. -/
theorem c3_counterexample :
    (getPRStatus 1000000000000 { samplePR with draft := true } 7).status =
        some ReviewState.DRAFT ∧
      (getPRStatus 1000000000000 { samplePR with draft := true } 7).stale =
        none ∧
      ((1000000000000 : Int) - samplePR.updated_at >
        7 * 24 * 60 * 60 * 1000) := by
  refine ⟨by decide, by decide, by decide⟩

/-- Claim C3 as amended: for every draft pull request, `getPRStatus` assigns
status DRAFT and returns immediately, leaving every other field — including
`stale` — exactly as it was in the input; staleness is computed only on the
non-draft branch. -/
theorem c3_amended_draft_skips_staleness (now staleThresholdDays : Int)
    (pr : PullRequest) (h : pr.draft = true) :
    getPRStatus now pr staleThresholdDays =
      { pr with status := some ReviewState.DRAFT } := by
  simp [getPRStatus, h]

/-- Witness for the amended C3 at a concrete draft pull request. -/
theorem c3_amended_draft_skips_staleness_witness :
    getPRStatus 1000000000000 { samplePR with draft := true } 7 =
      { samplePR with draft := true, status := some ReviewState.DRAFT } :=
  c3_amended_draft_skips_staleness 1000000000000 7
    { samplePR with draft := true } rfl

/-- Counterexample to claim C6: the concrete non-draft pull request whose
single review is COMMENTED (no reviewDecision) is classified NEEDS_REVIEW,
not APPROVED as the claim asserts. -/
theorem c6_counterexample :
    (getPRStatus 0 commentedPR 7).status = some ReviewState.NEEDS_REVIEW ∧
      (getPRStatus 0 commentedPR 7).status ≠ some ReviewState.APPROVED := by
  refine ⟨by decide, by decide⟩

/-- Claim C6 as amended: `isApproved` does treat COMMENTED reviews as
equivalent to APPROVED, but a non-draft pull request with no reviewDecision
and a non-empty all-COMMENTED review list is classified NEEDS_REVIEW, not
APPROVED — the needsReview check (no APPROVED review) fires before
`isApproved` is ever consulted. The leniency is observable exactly when at
least one APPROVED review is present: with reviews mixing APPROVED and
COMMENTED and nothing requesting changes, the status is APPROVED, the
COMMENTED reviews not blocking approval. -/
theorem c6_amended_commented_only_needs_review (now staleThresholdDays : Int) :
    (∀ (pr : PullRequest) (rs : List Review), pr.draft = false →
        pr.reviewDecision = none → pr.reviews = some rs → rs ≠ [] →
        (∀ r ∈ rs, r.state = "COMMENTED") →
        isApproved pr = true ∧
          (getPRStatus now pr staleThresholdDays).status =
            some ReviewState.NEEDS_REVIEW) ∧
    (∀ (pr : PullRequest) (rs : List Review), pr.draft = false →
        pr.reviewDecision = none → pr.reviews = some rs →
        (∃ r ∈ rs, r.state = "APPROVED") →
        (∀ r ∈ rs, r.state = "APPROVED" ∨ r.state = "COMMENTED") →
        (getPRStatus now pr staleThresholdDays).status =
          some ReviewState.APPROVED) := by
  constructor
  · intro pr rs hdraft hdec hrev _hne hall
    have happ : isApproved pr = true := by
      unfold isApproved
      rw [hrev]
      have hl : rs.all (fun review =>
          review.state == "APPROVED" || review.state == "COMMENTED") = true := by
        rw [List.all_eq_true]
        intro r hr
        simp [hall r hr]
      simp [hl]
    refine ⟨happ, ?_⟩
    have hcr : hasChangesRequested pr = false := by
      unfold hasChangesRequested
      rw [hrev, hdec]
      have hl : (rs.any (fun review =>
          review.state == "CHANGES_REQUESTED")) = false := by
        rw [Bool.eq_false_iff]
        intro hc
        obtain ⟨r, hr, hs⟩ := List.any_eq_true.mp hc
        rw [hall r hr] at hs
        simp at hs
      simp [hl]
    have hnr : needsReview pr = true := by
      unfold needsReview
      rw [hrev]
      have hl : (rs.any (fun review => review.state == "APPROVED")) = false := by
        rw [Bool.eq_false_iff]
        intro hc
        obtain ⟨r, hr, hs⟩ := List.any_eq_true.mp hc
        rw [hall r hr] at hs
        simp at hs
      simp [hl]
    simp [getPRStatus, hdraft, hcr, hnr]
  · intro pr rs hdraft hdec hrev hex hall
    have hcr : hasChangesRequested pr = false := by
      unfold hasChangesRequested
      rw [hrev, hdec]
      have hl : (rs.any (fun review =>
          review.state == "CHANGES_REQUESTED")) = false := by
        rw [Bool.eq_false_iff]
        intro hc
        obtain ⟨r, hr, hs⟩ := List.any_eq_true.mp hc
        rcases hall r hr with h | h <;> rw [h] at hs <;> simp at hs
      simp [hl]
    have hnr : needsReview pr = false := by
      unfold needsReview
      rw [hrev, hdec]
      obtain ⟨r, hr, hs⟩ := hex
      have hany : rs.any (fun review => review.state == "APPROVED") = true :=
        List.any_eq_true.mpr ⟨r, hr, by simp [hs]⟩
      simp [hany]
    have happ : isApproved pr = true := by
      unfold isApproved
      rw [hrev]
      have hl : rs.all (fun review =>
          review.state == "APPROVED" || review.state == "COMMENTED") = true := by
        rw [List.all_eq_true]
        intro r hr
        rcases hall r hr with h | h <;> simp [h]
      simp [hl]
    simp [getPRStatus, hdraft, hcr, hnr, happ]

/-- Witness for the amended C6 at concrete pull requests: the all-COMMENTED
one is NEEDS_REVIEW with `isApproved` true, and the APPROVED-plus-COMMENTED
one is APPROVED. -/
theorem c6_amended_commented_only_needs_review_witness :
    (isApproved commentedPR = true ∧
        (getPRStatus 0 commentedPR 7).status =
          some ReviewState.NEEDS_REVIEW) ∧
      (getPRStatus 0 mixedReviewPR 7).status = some ReviewState.APPROVED :=
  ⟨(c6_amended_commented_only_needs_review 0 7).1 commentedPR
      [{ id := "r1", state := "COMMENTED", user := { login := "bob" },
         submitted_at := 0 }]
      rfl rfl rfl (by decide) (by decide),
    (c6_amended_commented_only_needs_review 0 7).2 mixedReviewPR
      [{ id := "r1", state := "APPROVED", user := { login := "bob" },
         submitted_at := 0 },
       { id := "r2", state := "COMMENTED", user := { login := "carol" },
         submitted_at := 0 }]
      rfl rfl rfl
      ⟨{ id := "r1", state := "APPROVED", user := { login := "bob" },
         submitted_at := 0 }, by decide, rfl⟩
      (by decide)⟩

/-- The `groupPRsByStatus` fold, started from an arbitrary accumulator,
extends each bucket by the input's matching pull requests in input order. -/
theorem groupPRsByStatus_foldl (prs : List PullRequest)
    (groups : ReviewState → List PullRequest) (s : ReviewState) :
    (prs.foldl groupReducer groups) s =
      groups s ++ prs.filter
        (fun pr => decide (pr.status.getD ReviewState.UNKNOWN = s)) := by
  induction prs generalizing groups with
  | nil => simp
  | cons pr rest ih =>
    rw [List.foldl_cons, ih, List.filter_cons]
    by_cases h : pr.status.getD ReviewState.UNKNOWN = s
    · simp [groupReducer, h]
    · simp [groupReducer, Ne.symm h, h]

/-- Claim C8: `groupPRsByStatus` returns a mapping defined on all five
status buckets (the result is a total function on `ReviewState`, whose five
constructors are the five buckets), and each bucket is exactly the input
filtered to that status, in input order — grouping never re-sorts. -/
theorem c8_group_by_status_buckets (prs : List PullRequest) (s : ReviewState) :
    groupPRsByStatus prs s =
      prs.filter (fun pr => decide (pr.status.getD ReviewState.UNKNOWN = s)) := by
  rw [groupPRsByStatus, groupPRsByStatus_foldl]
  simp

/-- Counterexample to claim C7: the storage record `"42"` is valid JSON, so
`JSON.parse` succeeds (no parse failure to fail closed from) and the store's
read returns the number 42 unchecked — which is not a set of identifiers
(`asStringArr` rejects it). The typed projection silently reads it as `[]`
even though nothing failed to parse. -/
theorem c7_counterexample :
    jsonParse "42" = some (JsValue.num 42 0) ∧
      getPinnedPRsValue (some "42") = JsValue.num 42 0 ∧
      asStringArr (getPinnedPRsValue (some "42")) = none ∧
      getPinnedPRs (some "42") = [] := by
  refine ⟨rfl, rfl, rfl, rfl⟩

/-- Claim C7 as amended: the pin store's read never throws and fails closed
on genuine failures — a missing record, an empty record, or a record
`JSON.parse` rejects all yield the empty array — but a record that parses is
returned as-is, unchecked: it is a set of identifiers exactly when the
stored record is a JSON array of strings (the only shape the store itself
writes), and corrupt storage holding other valid JSON comes back unchanged.
The declared-type reading `getPinnedPRs` is the string-array projection of
that value, defaulting to the empty list. -/
theorem c7_amended_pin_store (storage : Option String) :
    ((storage = none ∨ storage = some "" ∨
        ∃ s, storage = some s ∧ jsonParse s = none) →
      getPinnedPRsValue storage = JsValue.arr []) ∧
    (∀ s v, storage = some s → s ≠ "" → jsonParse s = some v →
      getPinnedPRsValue storage = v) ∧
    (getPinnedPRs storage =
      (asStringArr (getPinnedPRsValue storage)).getD []) := by
  refine ⟨?_, ?_, ?_⟩
  · intro h
    rcases h with h | h | ⟨s, hs, hp⟩
    · simp [getPinnedPRsValue, h]
    · simp [getPinnedPRsValue, h]
    · subst hs
      unfold getPinnedPRsValue
      by_cases he : s = ""
      · simp [he]
      · simp [he, hp]
  · intro s v hs hne hp
    subst hs
    unfold getPinnedPRsValue
    simp [hne, hp]
  · cases storage with
    | none => rfl
    | some s =>
      unfold getPinnedPRs getPinnedPRsValue parsePinnedList
      by_cases he : s = ""
      · simp [he, asStringArr, asStringList]
      · rcases hj : jsonParse s with _ | v
        · simp [he, hj, asStringArr, asStringList]
        · rcases ha : asStringArr v with _ | l <;> simp [he, hj, ha]

/-- Witness for the amended C7: a record that is not valid JSON reads as the
empty array; a stringified string array comes back as exactly that array,
both at the dynamic level and through the typed projection. -/
theorem c7_amended_pin_store_witness :
    getPinnedPRsValue (some "not json") = JsValue.arr [] ∧
      getPinnedPRsValue (some "[\"a\",\"b\"]") =
        JsValue.arr [JsValue.str "a", JsValue.str "b"] ∧
      getPinnedPRs (some "[\"a\",\"b\"]") = ["a", "b"] := by
  refine ⟨(c7_amended_pin_store (some "not json")).1
      (Or.inr (Or.inr ⟨"not json", rfl, rfl⟩)),
    (c7_amended_pin_store (some "[\"a\",\"b\"]")).2.1
      "[\"a\",\"b\"]" (JsValue.arr [JsValue.str "a", JsValue.str "b"])
      rfl (by decide) rfl, ?_⟩
  have h := (c7_amended_pin_store (some "[\"a\",\"b\"]")).2.2
  rw [h]
  rfl

/-- Counterexample to claim C9: on the repository name "hello-world" the
source hash (only the `<<` operand passes through signed 32-bit conversion;
the accumulator itself is exact integer arithmetic) yields hue 135, while
the claimed fully-wrapped 32-bit model yields hue 121, so the colour pairs
differ. -/
theorem c9_counterexample :
    repoHue "hello-world" = 135 ∧ repoHue32 "hello-world" = 121 ∧
      getRepoColor "hello-world" ≠ getRepoColorSpec "hello-world" := by
  refine ⟨by decide, by decide, by decide⟩

/-- Any two integers congruent modulo `2^32` have the same image under
`toInt32`. -/
theorem toInt32_congr {a b : Int} (h : a % 4294967296 = b % 4294967296) :
    toInt32 a = toInt32 b := by
  unfold toInt32
  omega

/-- `toInt32` preserves the residue modulo `2^32`. -/
theorem toInt32_emod (a : Int) :
    toInt32 a % 4294967296 = a % 4294967296 := by
  unfold toInt32
  omega

/-- Claim C9 as amended: `getRepoColor` is a deterministic pure function of
the repository name that folds each character's code point with
`hash = codePoint + ((hash << 5) - hash)`, where the `<<` operand and result
are signed 32-bit but the outer addition and subtraction are exact integer
arithmetic (not fully wrapped); `hue = abs(hash) mod 360` lies below 360 and
both HSL strings are built from that hue. The exact accumulator nevertheless
agrees with the spec's fully-wrapped accumulator modulo `2^32` at every
fold step over the whole string. -/
theorem c9_amended_repo_color (repoName : String) :
    getRepoColor repoName =
      ("hsl(" ++ toString (repoHue repoName) ++ ", 80%, 90%)",
       "hsl(" ++ toString (repoHue repoName) ++ ", 80%, 30%)") ∧
    repoHue repoName = (repoHash repoName).natAbs % 360 ∧
    repoHue repoName < 360 ∧
    repoHash repoName % 4294967296 = repoHash32 repoName % 4294967296 := by
  refine ⟨rfl, rfl, Nat.mod_lt _ (by norm_num), ?_⟩
  unfold repoHash repoHash32
  generalize repoName.data = l
  have key : ∀ (l : List Char) (a b : Int), a % 4294967296 = b % 4294967296 →
      (l.foldl (fun acc char =>
          (char.toNat : Int) + (jsShiftLeft5 acc - acc)) a) % 4294967296 =
        (l.foldl (fun acc char =>
          toInt32 ((char.toNat : Int) + (jsShiftLeft5 acc - acc))) b) %
          4294967296 := by
    intro l
    induction l with
    | nil => intro a b h; simpa using h
    | cons c rest ih =>
      intro a b h
      rw [List.foldl_cons, List.foldl_cons]
      apply ih
      have hshift : jsShiftLeft5 a = jsShiftLeft5 b := by
        unfold jsShiftLeft5
        have := toInt32_congr h
        rw [this]
      rw [toInt32_emod, hshift]
      omega
  exact key l 0 0 rfl

/-- Claim C10: `applyPinStatus` returns a list of the same length as its
input in which the `i`-th output pull request equals the `i`-th input pull
request with only `isPinned` replaced, set exactly when the input's id is in
the persisted pinned list. -/
theorem c10_apply_pin_status (storage : Option String)
    (prs : List PullRequest) :
    (applyPinStatus storage prs).length = prs.length ∧
      ∀ (i : Nat) (pr : PullRequest), prs[i]? = some pr →
        (applyPinStatus storage prs)[i]? =
          some { pr with isPinned := (getPinnedPRs storage).contains pr.id } := by
  constructor
  · simp [applyPinStatus]
  · intro i pr h
    simp [applyPinStatus, List.getElem?_map, h]

/-- Witness for C10 at a concrete pinned-id store and a singleton list. -/
theorem c10_apply_pin_status_witness :
    (applyPinStatus (some "[\"1\"]") [samplePR])[0]? =
      some { samplePR with isPinned := true } := by
  have h := (c10_apply_pin_status (some "[\"1\"]") [samplePR]).2 0 samplePR rfl
  have e : ({ samplePR with
      isPinned := (getPinnedPRs (some "[\"1\"]")).contains samplePR.id } :
        PullRequest) = { samplePR with isPinned := true } := by decide
  rw [e] at h
  exact h

/-- A pull request that survives the main filter is not a draft: the filter
callback's first test rejects drafts unconditionally. -/
theorem passes_filter_draft_false {options : FilterOptions} {q : String}
    {pr : PullRequest} (h : prPassesFilter options q pr = true) :
    pr.draft = false := by
  by_contra hd
  rw [Bool.not_eq_false] at hd
  unfold prPassesFilter at h
  simp [hd] at h

/-- No draft ever appears in the output of `filterAndSortPRs`. -/
theorem draft_not_in_filterAndSort (l : List PullRequest)
    (options : FilterOptions) (pr : PullRequest)
    (h : pr ∈ filterAndSortPRs l options) : pr.draft = false := by
  unfold filterAndSortPRs at h
  rw [List.mem_mergeSort] at h
  exact passes_filter_draft_false (List.mem_filter.mp h).2

/-- Counterexample to claim C4: a draft pull request that satisfies every
other filter (no repository, author, staleness or query restriction), with
the legacy drafts-visibility flag set to true, still does not appear in the
output — `filterPRs [draft] "" true` is empty. -/
theorem c4_counterexample :
    filterPRs [{ samplePR with draft := true }] "" true = [] := by
  have h : filterPRs [{ samplePR with draft := true }] "" true =
      List.mergeSort []
        (fun a b => decide (comparePRs
          { searchQuery := ""
            repositories := []
            authors := []
            hideStale := true
            sortBy := SortBy.updated
            prioritizeMyReviews := true } a b ≤ 0)) := rfl
  rw [h, List.mergeSort_nil]

/-- Claim C4 as amended: the filter stage of `filterAndSortPRs` excludes
draft pull requests unconditionally, and the legacy `showDrafts` flag of
`filterPRs` cannot make a draft appear either, because the wrapped
`filterAndSortPRs` re-excludes drafts (drafts are surfaced through the
separate DRAFT tab instead). -/
theorem c4_amended_drafts_always_excluded (prs : List PullRequest)
    (options : FilterOptions) (query : String) (showDrafts : Bool)
    (pr : PullRequest) :
    (pr ∈ filterAndSortPRs prs options → pr.draft = false) ∧
      (pr ∈ filterPRs prs query showDrafts → pr.draft = false) := by
  constructor
  · exact draft_not_in_filterAndSort prs options pr
  · intro h
    unfold filterPRs at h
    exact draft_not_in_filterAndSort _ _ pr h

/-- Witness for the amended C4: a concrete non-draft pull request passes
through both pipelines, and the theorem instantiated there reports its
draft flag false. -/
theorem c4_amended_drafts_always_excluded_witness :
    samplePR.draft = false ∧ samplePR.draft = false := by
  have e1 : filterAndSortPRs [samplePR]
      { searchQuery := ""
        repositories := []
        authors := []
        hideStale := true
        sortBy := SortBy.updated
        prioritizeMyReviews := true } = [samplePR] := by
    have h : filterAndSortPRs [samplePR]
        { searchQuery := ""
          repositories := []
          authors := []
          hideStale := true
          sortBy := SortBy.updated
          prioritizeMyReviews := true } =
        List.mergeSort [samplePR]
          (fun a b => decide (comparePRs
            { searchQuery := ""
              repositories := []
              authors := []
              hideStale := true
              sortBy := SortBy.updated
              prioritizeMyReviews := true } a b ≤ 0)) := rfl
    rw [h, List.mergeSort_singleton]
  have e2 : filterPRs [samplePR] "" true = [samplePR] := by
    have h : filterPRs [samplePR] "" true =
        List.mergeSort [samplePR]
          (fun a b => decide (comparePRs
            { searchQuery := ""
              repositories := []
              authors := []
              hideStale := true
              sortBy := SortBy.updated
              prioritizeMyReviews := true } a b ≤ 0)) := rfl
    rw [h, List.mergeSort_singleton]
  refine ⟨(c4_amended_drafts_always_excluded [samplePR]
      { searchQuery := ""
        repositories := []
        authors := []
        hideStale := true
        sortBy := SortBy.updated
        prioritizeMyReviews := true } "" true samplePR).1 ?_,
    (c4_amended_drafts_always_excluded [samplePR]
      { searchQuery := ""
        repositories := []
        authors := []
        hideStale := true
        sortBy := SortBy.updated
        prioritizeMyReviews := true } "" true samplePR).2 ?_⟩
  · rw [e1]
    exact List.mem_cons_self _ _
  · rw [e2]
    exact List.mem_cons_self _ _

/-- `strCompare` is nonpositive exactly when the first string orders no
later than the second. -/
theorem strCompare_nonpos_iff (a b : String) : strCompare a b ≤ 0 ↔ a ≤ b := by
  unfold strCompare
  split_ifs with h1 h2
  · exact iff_of_true (by norm_num) h1.le
  · exact iff_of_false (by norm_num) (not_le.mpr h2)
  · exact iff_of_true le_rfl (not_lt.mp h2)

/-- The bottom comparator is transitive in its nonpositive fragment. -/
theorem baseCompare_nonpos_trans (sb : SortBy) (a b c : PullRequest)
    (h1 : baseCompare sb a b ≤ 0) (h2 : baseCompare sb b c ≤ 0) :
    baseCompare sb a c ≤ 0 := by
  cases sb <;> simp only [baseCompare] at *
  · omega
  · omega
  · omega
  · rw [strCompare_nonpos_iff] at *
    exact le_trans h1 h2

/-- The bottom comparator is total in its nonpositive fragment. -/
theorem baseCompare_nonpos_total (sb : SortBy) (a b : PullRequest) :
    baseCompare sb a b ≤ 0 ∨ baseCompare sb b a ≤ 0 := by
  cases sb <;> simp only [baseCompare]
  · omega
  · omega
  · omega
  · rw [strCompare_nonpos_iff, strCompare_nonpos_iff]
    exact le_total a.title b.title

/-- The source comparator viewed through the rank functions: a three-level
lexicographic comparison (pin rank, reviewer rank, bottom comparator). -/
theorem comparePRs_eq_rank (options : FilterOptions) (a b : PullRequest) :
    comparePRs options a b =
      if pinRank a < pinRank b then -1
      else if pinRank b < pinRank a then 1
      else if revRank options a < revRank options b then -1
      else if revRank options b < revRank options a then 1
      else baseCompare options.sortBy a b := by
  unfold comparePRs pinRank revRank baseCompare
  cases ha : a.isPinned <;> cases hb : b.isPinned <;>
    cases hp : options.prioritizeMyReviews <;>
    cases hra : a.userIsRequestedReviewer <;>
    cases hrb : b.userIsRequestedReviewer <;> simp

/-- The comparator is nonpositive exactly on the lexicographic order of the
rank pair followed by the bottom comparator. -/
theorem comparePRs_nonpos_iff (options : FilterOptions) (a b : PullRequest) :
    comparePRs options a b ≤ 0 ↔
      pinRank a < pinRank b ∨ (pinRank a = pinRank b ∧
        (revRank options a < revRank options b ∨
          (revRank options a = revRank options b ∧
            baseCompare options.sortBy a b ≤ 0))) := by
  rw [comparePRs_eq_rank]
  split_ifs with h1 h2 h3 h4
  · exact iff_of_true (by norm_num) (Or.inl h1)
  · refine iff_of_false (by norm_num) ?_
    rintro (h | ⟨he, _⟩) <;> omega
  · exact iff_of_true (by norm_num) (Or.inr ⟨by omega, Or.inl h3⟩)
  · refine iff_of_false (by norm_num) ?_
    rintro (h | ⟨he, h | ⟨he2, _⟩⟩) <;> omega
  · constructor
    · intro hb
      exact Or.inr ⟨by omega, Or.inr ⟨by omega, hb⟩⟩
    · rintro (h | ⟨he, h | ⟨he2, hb⟩⟩)
      · omega
      · omega
      · exact hb

/-- The comparator vanishes exactly when both ranks tie and the bottom
comparator vanishes. -/
theorem comparePRs_eq_zero_iff (options : FilterOptions) (a b : PullRequest) :
    comparePRs options a b = 0 ↔
      pinRank a = pinRank b ∧ revRank options a = revRank options b ∧
        baseCompare options.sortBy a b = 0 := by
  rw [comparePRs_eq_rank]
  split_ifs with h1 h2 h3 h4
  · refine iff_of_false (by norm_num) ?_
    rintro ⟨he, _⟩; omega
  · refine iff_of_false (by norm_num) ?_
    rintro ⟨he, _⟩; omega
  · refine iff_of_false (by norm_num) ?_
    rintro ⟨_, he, _⟩; omega
  · refine iff_of_false (by norm_num) ?_
    rintro ⟨_, he, _⟩; omega
  · constructor
    · intro hb
      exact ⟨by omega, by omega, hb⟩
    · rintro ⟨_, _, hb⟩
      exact hb

/-- Transitivity of the comparator's nonpositive fragment. -/
theorem comparePRs_le_trans (options : FilterOptions) (a b c : PullRequest)
    (hab : comparePRs options a b ≤ 0) (hbc : comparePRs options b c ≤ 0) :
    comparePRs options a c ≤ 0 := by
  rw [comparePRs_nonpos_iff] at hab hbc ⊢
  rcases hab with h1 | ⟨e1, hr1⟩
  · rcases hbc with h2 | ⟨e2, _⟩
    · exact Or.inl (by omega)
    · exact Or.inl (by omega)
  · rcases hbc with h2 | ⟨e2, hr2⟩
    · exact Or.inl (by omega)
    · refine Or.inr ⟨by omega, ?_⟩
      rcases hr1 with h1 | ⟨f1, hb1⟩
      · rcases hr2 with h2 | ⟨f2, _⟩
        · exact Or.inl (by omega)
        · exact Or.inl (by omega)
      · rcases hr2 with h2 | ⟨f2, hb2⟩
        · exact Or.inl (by omega)
        · exact Or.inr ⟨by omega, baseCompare_nonpos_trans _ _ _ _ hb1 hb2⟩

/-- Totality of the comparator's nonpositive fragment. -/
theorem comparePRs_le_total (options : FilterOptions) (a b : PullRequest) :
    comparePRs options a b ≤ 0 ∨ comparePRs options b a ≤ 0 := by
  rcases Nat.lt_trichotomy (pinRank a) (pinRank b) with h | h | h
  · exact Or.inl ((comparePRs_nonpos_iff options a b).mpr (Or.inl h))
  · rcases Nat.lt_trichotomy (revRank options a) (revRank options b) with
      h' | h' | h'
    · exact Or.inl ((comparePRs_nonpos_iff options a b).mpr
        (Or.inr ⟨h, Or.inl h'⟩))
    · rcases baseCompare_nonpos_total options.sortBy a b with hb | hb
      · exact Or.inl ((comparePRs_nonpos_iff options a b).mpr
          (Or.inr ⟨h, Or.inr ⟨h', hb⟩⟩))
      · exact Or.inr ((comparePRs_nonpos_iff options b a).mpr
          (Or.inr ⟨h.symm, Or.inr ⟨h'.symm, hb⟩⟩))
    · exact Or.inr ((comparePRs_nonpos_iff options b a).mpr
        (Or.inr ⟨h.symm, Or.inl h'⟩))
  · exact Or.inr ((comparePRs_nonpos_iff options b a).mpr (Or.inl h))

/-- Transitivity of the Boolean comparison used by the sort. -/
theorem prLE_trans (options : FilterOptions) (a b c : PullRequest)
    (hab : decide (comparePRs options a b ≤ 0) = true)
    (hbc : decide (comparePRs options b c ≤ 0) = true) :
    decide (comparePRs options a c ≤ 0) = true := by
  rw [decide_eq_true_eq] at hab hbc ⊢
  exact comparePRs_le_trans options a b c hab hbc

/-- Totality of the Boolean comparison used by the sort. -/
theorem prLE_total (options : FilterOptions) (a b : PullRequest) :
    (decide (comparePRs options a b ≤ 0) ||
      decide (comparePRs options b a ≤ 0)) = true := by
  rcases comparePRs_le_total options a b with h | h <;> simp [h]

/-- Claim C5: in the sort stage of `filterAndSortPRs`, (1) pinned pull
requests all come before unpinned ones in the output; (2) the pin comparison
is decided before the requested-reviewer comparison — a pinned/unpinned pair
compares -1/1 whatever the reviewer flags and the `prioritizeMyReviews`
option; (3) with pins tied and `prioritizeMyReviews` on, a requested/not
requested reviewer pair compares -1/1 whatever the `sortBy` keys; (4) only
pairs tied on both levels fall through to the `sortBy` comparator; (5) the
sort is stable — a pair of the filtered input comparing 0 keeps its relative
input order in the output. -/
theorem c5_sort_priorities (prs : List PullRequest) (options : FilterOptions) :
    (∀ (i j : Nat) (hi : i < (filterAndSortPRs prs options).length)
        (hj : j < (filterAndSortPRs prs options).length), i ≤ j →
        ((filterAndSortPRs prs options)[j]).isPinned = true →
        ((filterAndSortPRs prs options)[i]).isPinned = true) ∧
    (∀ a b : PullRequest, a.isPinned = true → b.isPinned = false →
        comparePRs options a b = -1 ∧ comparePRs options b a = 1) ∧
    (∀ a b : PullRequest, a.isPinned = b.isPinned →
        options.prioritizeMyReviews = true →
        a.userIsRequestedReviewer = true → b.userIsRequestedReviewer = false →
        comparePRs options a b = -1 ∧ comparePRs options b a = 1) ∧
    (∀ a b : PullRequest, a.isPinned = b.isPinned →
        (options.prioritizeMyReviews = true →
          a.userIsRequestedReviewer = b.userIsRequestedReviewer) →
        comparePRs options a b = baseCompare options.sortBy a b) ∧
    (∀ a b : PullRequest,
        [a, b].Sublist (prs.filter (prPassesFilter options
          (jsTrim (jsToLower options.searchQuery)))) →
        comparePRs options a b = 0 →
        [a, b].Sublist (filterAndSortPRs prs options)) := by
  have hout : filterAndSortPRs prs options =
      (prs.filter (prPassesFilter options
        (jsTrim (jsToLower options.searchQuery)))).mergeSort
        (fun a b => decide (comparePRs options a b ≤ 0)) := rfl
  refine ⟨?_, ?_, ?_, ?_, ?_⟩
  · intro i j hi hj hij hpj
    rcases Nat.eq_or_lt_of_le hij with heq | hlt
    · subst heq
      exact hpj
    · by_contra hpi
      rw [Bool.not_eq_true] at hpi
      have hsorted := List.sorted_mergeSort
        (prLE_trans options) (prLE_total options)
        (prs.filter (prPassesFilter options
          (jsTrim (jsToLower options.searchQuery))))
      rw [← hout] at hsorted
      have hle := List.pairwise_iff_getElem.mp hsorted i j hi hj hlt
      rw [decide_eq_true_eq, comparePRs_nonpos_iff] at hle
      have h1 : pinRank ((filterAndSortPRs prs options)[i]) = 1 := by
        unfold pinRank
        rw [hpi]
        rfl
      have h2 : pinRank ((filterAndSortPRs prs options)[j]) = 0 := by
        unfold pinRank
        rw [hpj]
        rfl
      rw [h1, h2] at hle
      rcases hle with h | ⟨h, _⟩ <;> omega
  · intro a b ha hb
    constructor <;> simp [comparePRs, ha, hb]
  · intro a b hpin hp hra hrb
    constructor <;> simp [comparePRs, hpin, hp, hra, hrb]
  · intro a b hpin hrev
    have h1 : (a.isPinned && !b.isPinned) = false := by
      rw [hpin]
      cases b.isPinned <;> rfl
    have h2 : (!a.isPinned && b.isPinned) = false := by
      rw [hpin]
      cases b.isPinned <;> rfl
    cases hp : options.prioritizeMyReviews
    · unfold comparePRs
      rw [h1, h2, hp]
      simp only [Bool.false_and, Bool.false_eq_true, if_false]
      rfl
    · have he := hrev hp
      have h3 : (options.prioritizeMyReviews &&
          (a.userIsRequestedReviewer && !b.userIsRequestedReviewer)) = false := by
        rw [hp, he]
        cases b.userIsRequestedReviewer <;> rfl
      have h4 : (options.prioritizeMyReviews &&
          (!a.userIsRequestedReviewer && b.userIsRequestedReviewer)) = false := by
        rw [hp, he]
        cases b.userIsRequestedReviewer <;> rfl
      unfold comparePRs
      rw [h1, h2, h3, h4]
      simp only [Bool.false_eq_true, if_false]
      rfl
  · intro a b hsub hz
    rw [hout]
    exact List.pair_sublist_mergeSort (prLE_trans options) (prLE_total options)
      (by simp [hz]) hsub

/-- Witness for C5 at concrete pull requests: with `prioritizeMyReviews`
enabled, a pinned non-reviewer still sorts strictly before an unpinned
requested reviewer — pin priority is decided first. -/
theorem c5_sort_priorities_witness :
    comparePRs
        { searchQuery := ""
          repositories := []
          authors := []
          hideStale := false
          sortBy := SortBy.updated
          prioritizeMyReviews := true }
        { samplePR with isPinned := true }
        { samplePR with userIsRequestedReviewer := true } = -1 ∧
      comparePRs
        { searchQuery := ""
          repositories := []
          authors := []
          hideStale := false
          sortBy := SortBy.updated
          prioritizeMyReviews := true }
        { samplePR with userIsRequestedReviewer := true }
        { samplePR with isPinned := true } = 1 :=
  (c5_sort_priorities []
    { searchQuery := ""
      repositories := []
      authors := []
      hideStale := false
      sortBy := SortBy.updated
      prioritizeMyReviews := true }).2.1
    { samplePR with isPinned := true }
    { samplePR with userIsRequestedReviewer := true } rfl rfl

end GitGud
